import Mathlib

/-!
Verification development for the kaleidoscope generator (`src/kaleidoscope.py`).

The script is embedded shallowly:
* images are total functions from integer pixel coordinates to 8-bit
  channel values (`GImg` single channel, `CImg` three channels);
* the OpenCV raster primitives whose numeric behaviour the claims do not
  depend on pixel-exactly (`cv2.fillConvexPoly` wedge rasterization and
  `cv2.getRotationMatrix2D`/`cv2.warpAffine`) are abstracted into the
  `CvPrims` parameter record, with the per-channel independence of
  `warpAffine` made explicit by `warp3`;
* the exact geometry of the wedge triangle built at lines 62-77 of the
  source is modelled separately over the real plane (`InWedgeMask`),
  with `int(...)` truncation toward zero kept (`TruncTo`);
* the driver loop of one iteration (file listing, `random.randint`
  segment choice, the insufficient-images guard, preprocessing, frame
  generation, GIF saving) is modelled as `runIteration`, with fallible
  steps in `Except`.
-/

namespace Kscope

/-- Integer pixel coordinate `(x, y)`, raster convention (y grows downward). -/
abbrev Pix : Type := ℤ × ℤ

/-- Single-channel image, as in the `numpy` `uint8` arrays of the source. -/
abbrev GImg : Type := Pix → ℕ

/-- Three-channel image (`frame_size × frame_size × 3` arrays of the source). -/
abbrev CImg : Type := Pix → Fin 3 → ℕ

/-- The all-zero canvas `np.zeros((h, w, 3), dtype=np.uint8)` (line 56). -/
def zeroC : CImg := fun _ _ => 0

/-- Saturating 8-bit addition, the semantics of `cv2.add` on `uint8`. -/
def satAdd (a b : ℕ) : ℕ := min (a + b) 255

/-- `cv2.add(output, rotated)` (line 85): per-pixel per-channel saturating add. -/
def satAdd3 (f g : CImg) : CImg := fun p c => satAdd (f p c) (g p c)

/-- `cv2.bitwise_and(src, src, mask=mask)` (line 79): copy the source where
the single-channel mask is nonzero, zero elsewhere. -/
def applyMask (m : GImg) (img : CImg) : CImg :=
  fun p c => if m p = 0 then 0 else img p c

/-- `cv2.bitwise_and(output, circle_mask_rgb)` (line 89): bitwise AND of the
frame with the 3-fold replicated single-channel mask. -/
def bitAnd3 (m : GImg) (img : CImg) : CImg :=
  fun p c => Nat.land (img p c) (m p)

/-- `cv2.flip(rotated, 1)` (line 84): horizontal mirror about the vertical
axis of an `S`-pixel-wide canvas, `dst(x, y) = src(S - 1 - x, y)`. -/
def flipH (S : ℕ) (img : CImg) : CImg :=
  fun p c => img ((S : ℤ) - 1 - p.1, p.2) c

/-- The canvas center `(w // 2, h // 2)` of line 44 (with `w = h = S`). -/
def centerPix (S : ℕ) : Pix := (((S / 2 : ℕ) : ℤ), ((S / 2 : ℕ) : ℤ))

/-- `cv2.circle(circle_mask, center, w // 2, 255, -1)` (line 51): the filled
disc of radius `S / 2` about the canvas center. -/
def circleM (S : ℕ) : GImg :=
  fun p =>
    if (p.1 - (centerPix S).1) ^ 2 + (p.2 - (centerPix S).2) ^ 2 ≤ ((S / 2 : ℕ) : ℤ) ^ 2
    then 255 else 0

/-- The two OpenCV raster primitives the pipeline is parameterized over.

`fillWedge S c θ1 θ2` stands for the single-channel mask produced at lines
61-77: a zeroed `S × S` canvas into which `cv2.fillConvexPoly` rasterizes the
triangle with vertices `c`, `c + S·(cos θ1, sin θ1)`, `c + S·(cos θ2, sin θ2)`
(angles in degrees); its real-plane geometry is modelled by `InWedgeMask`.

`warpG c θ s` stands for `cv2.warpAffine` with matrix
`cv2.getRotationMatrix2D(c, θ, s)` (rotation by `θ` degrees about `c` at
scale `s`, out-of-canvas samples filled with zero) applied to one channel. -/
structure CvPrims where
  fillWedge : ℕ → Pix → ℚ → ℚ → GImg
  warpG : Pix → ℚ → ℚ → GImg → GImg

/-- `cv2.warpAffine` on a 3-channel array: the same single-channel warp is
applied to each channel independently. -/
def warp3 (P : CvPrims) (c : Pix) (θ s : ℚ) (img : CImg) : CImg :=
  fun p ch => P.warpG c θ s (fun q => img q ch) p

/-- The content wedge index `i` contributes to a frame at base rotation
`brot` (the body of the inner loop, lines 59-86): take source image
`i % len(processed_images)`, mask it with the wedge mask at angles
`angle1 = brot + i·(360/n)` and `angle2 = brot + (i+1)·(360/n)`, rotate by
`-angle1` degrees at unit scale about the center, and mirror horizontally
when `i` is odd. -/
def wedgeTerm (P : CvPrims) (imgs : List CImg) (S n : ℕ) (brot : ℚ) (i : ℕ) : CImg :=
  let srcImg := imgs.getD (i % imgs.length) zeroC
  let angle1 : ℚ := brot + i * (360 / n)
  let angle2 : ℚ := brot + (i + 1) * (360 / n)
  let mask := P.fillWedge S (centerPix S) angle1 angle2
  let wedge := applyMask mask srcImg
  let rotated := warp3 P (centerPix S) (-angle1) 1 wedge
  if i % 2 = 1 then flipH S rotated else rotated

/-- One frame of the animation (lines 55-89): accumulate all `n` wedge
contributions onto a zeroed canvas with `cv2.add`, then clip with the
replicated circular mask. -/
def renderFrame (P : CvPrims) (imgs : List CImg) (S n : ℕ) (brot : ℚ) : CImg :=
  bitAnd3 (circleM S)
    ((List.range n).foldl
      (fun (out : CImg) (i : ℕ) =>
        let srcImg := imgs.getD (i % imgs.length) zeroC
        let angle1 : ℚ := brot + i * (360 / n)
        let angle2 : ℚ := brot + (i + 1) * (360 / n)
        let mask := P.fillWedge S (centerPix S) angle1 angle2
        let wedge := applyMask mask srcImg
        let rotated := warp3 P (centerPix S) (-angle1) 1 wedge
        satAdd3 out (if i % 2 = 1 then flipH S rotated else rotated))
      zeroC)

/-- The full frame loop (lines 54-90): frame `f` of `fc` is rendered at
`base_rotation = f * rotation_per_frame` with `rotation_per_frame = 360 / fc`. -/
def generateFrames (P : CvPrims) (imgs : List CImg) (S n fc : ℕ) : List CImg :=
  (List.range fc).map (fun (f : ℕ) => renderFrame P imgs S n ((f : ℚ) * (360 / (fc : ℚ))))

/-- A decoded input bitmap as `Image.open` yields it (line 35): a
`width × height` grid of pixels of some color type `α`. -/
structure RawImg (α : Type) where
  width : ℕ
  height : ℕ
  px : ℕ → ℕ → α

/-- A single-channel PIL image (the result of `.convert("L")`). -/
structure GrayImg where
  width : ℕ
  height : ℕ
  px : ℕ → ℕ → ℕ

/-- `img.convert("L")` (line 35): pointwise conversion to one intensity
channel by a luma map, dimensions unchanged. -/
def convertL {α : Type} (luma : α → ℕ) (img : RawImg α) : GrayImg :=
  ⟨img.width, img.height, fun x y => luma (img.px x y)⟩

/-- `img.crop((l, t, r, b))` (lines 37-38): the `(r - l) × (b - t)` window
whose pixel `(x, y)` is the source pixel `(x + l, y + t)`. -/
def cropBox (img : GrayImg) (l t r b : ℕ) : GrayImg :=
  ⟨r - l, b - t, fun x y => img.px (x + l) (y + t)⟩

/-- The centered square crop of lines 36-38: with `s = min(img.size)`, crop
to the box `((W - s) // 2, (H - s) // 2, (W + s) // 2, (H + s) // 2)`. -/
def centerCrop (img : GrayImg) : GrayImg :=
  let s := min img.width img.height
  cropBox img ((img.width - s) / 2) ((img.height - s) / 2)
    ((img.width + s) / 2) ((img.height + s) / 2)

/-- `img.resize((W, H))` (line 39), parameterized by the resampling policy
`pol img W H x y` that computes the output pixel at `(x, y)`; only the
output dimensions are fixed by the embedding. -/
def resizeTo (pol : GrayImg → ℕ → ℕ → ℕ → ℕ → ℕ) (W H : ℕ) (img : GrayImg) : GrayImg :=
  ⟨W, H, fun x y => pol img W H x y⟩

/-- A finite 3-channel bitmap with explicit dimensions. -/
structure Img3 where
  width : ℕ
  height : ℕ
  px : ℕ → ℕ → Fin 3 → ℕ

/-- `cv2.cvtColor(img_np, cv2.COLOR_GRAY2RGB)` (line 41): broadcast the one
channel to 3 identical channels. -/
def gray2rgb (img : GrayImg) : Img3 :=
  ⟨img.width, img.height, fun x y _ => img.px x y⟩

/-- The whole Image Preprocessor (lines 35-41): convert to intensity, take
the largest centered square crop, resize to `S × S`, broadcast to RGB. -/
def preprocess {α : Type} (luma : α → ℕ) (pol : GrayImg → ℕ → ℕ → ℕ → ℕ → ℕ)
    (S : ℕ) (raw : RawImg α) : Img3 :=
  gray2rgb (resizeTo pol S S (centerCrop (convertL luma raw)))

/-- View a finite bitmap as a total canvas image: in-range coordinates read
the bitmap, everything else is zero. -/
def toCanvas (img : Img3) : CImg :=
  fun p c =>
    if 0 ≤ p.1 ∧ p.1 < (img.width : ℤ) ∧ 0 ≤ p.2 ∧ p.2 < (img.height : ℤ)
    then img.px p.1.toNat p.2.toNat c else 0

/-- The failures one driver iteration can raise: `random.randint` on an
empty range (line 25 when fewer than 2 files exist), the explicit
`ValueError` for insufficient images (line 29), and the `IndexError` of
`frames[0]` on an empty frame list (line 94). -/
inductive KErr where
  | emptyRandRange : KErr
  | insufficientSources : KErr
  | emptyFrames : KErr
deriving DecidableEq, Repr

/-- The saved animation: file name, encoded frame list, per-frame delay in
milliseconds, and loop count (lines 93-94). -/
structure Artifact where
  name : String
  frames : List CImg
  durationMs : ℕ
  loop : ℕ

/-- The decimal digit characters of `n`, most significant first, as Python
string formatting prints them (empty for `n = 0`, like `Nat.digits`). -/
def decRepr (n : ℕ) : List Char :=
  ((Nat.digits 10 n).map (fun d => Char.ofNat (48 + d))).reverse

/-- Python `f-string` formatting `{n:03}`: the decimal digits of `n` padded
with leading zeros to at least width 3 (for `n = 0` this gives `000`). -/
def pad3 (n : ℕ) : String :=
  String.mk (List.replicate (3 - (decRepr n).length) '0' ++ decRepr n)

/-- The output file name `f"kaleidoscope_{iteration:03}.gif"` (line 93). -/
def gifName (iteration : ℕ) : String :=
  "kaleidoscope_" ++ pad3 iteration ++ ".gif"

/-- `frames[0].save(..., save_all=True, append_images=frames[1:],
duration=50, loop=0)` (line 94): encode the whole sequence with a fixed
50 ms delay and infinite looping; `frames[0]` fails on an empty list. -/
def saveGif (iteration : ℕ) (frames : List CImg) : Except KErr Artifact :=
  match frames with
  | [] => .error .emptyFrames
  | f0 :: rest => .ok ⟨gifName iteration, f0 :: rest, 50, 0⟩

/-- `random.randint(2, m)` (line 25): raises on an empty range (`m < 2`),
otherwise returns a value of the inclusive range `[2, m]`; the draw is
determined by the seed-like argument `r` ranging over all naturals. -/
def pickNSegments (m r : ℕ) : Except KErr ℕ :=
  if m < 2 then .error .emptyRandRange else .ok (2 + r % (m - 1))

/-- One driver iteration from the point where `n_segments` is known
(lines 28-94): the insufficient-images guard, then preprocessing of every
(decoded) file, then frame generation, then the GIF save. -/
def runWithSegments {α F : Type} (P : CvPrims) (luma : α → ℕ)
    (pol : GrayImg → ℕ → ℕ → ℕ → ℕ → ℕ) (S fc iteration : ℕ)
    (decode : F → RawImg α) (files : List F) (n : ℕ) : Except KErr Artifact :=
  if files.length < n then .error .insufficientSources
  else
    let processed := files.map (fun f => toCanvas (preprocess luma pol S (decode f)))
    saveGif iteration (generateFrames P processed S n fc)

/-- One whole driver iteration (lines 21-94): choose `n_segments` by
`random.randint(2, len(image_files))`, then run the rest. -/
def runIteration {α F : Type} (P : CvPrims) (luma : α → ℕ)
    (pol : GrayImg → ℕ → ℕ → ℕ → ℕ → ℕ) (S fc iteration r : ℕ)
    (decode : F → RawImg α) (files : List F) : Except KErr Artifact :=
  (pickNSegments files.length r).bind
    (runWithSegments P luma pol S fc iteration decode files)

/-- Modelled from the spec: the single-image mirror mode (spec §1, §4.3) is
not part of `src/kaleidoscope.py` (the only source file, which implements
only the multi-image mode). Following the spec's words: ONE WedgeMask at
`angle1 = 0`, `angle2 = angle_per_slice` and ONE masked base wedge are
precomputed for the entire animation, and each frame only rotates that
precomputed base wedge by `base_rotation + i * angle_per_slice` (the angle
passed to the rotation primitive is negated, per §4.3) and mirrors on odd
`i`, accumulating and disc-clipping as in the multi-image mode. -/
def mirrorModeFrames (P : CvPrims) (src : CImg) (S n fc : ℕ) : List CImg :=
  let aps : ℚ := 360 / n
  let mask := P.fillWedge S (centerPix S) 0 aps
  let baseWedge := applyMask mask src
  (List.range fc).map (fun (f : ℕ) =>
    bitAnd3 (circleM S)
      ((List.range n).foldl
        (fun (out : CImg) (i : ℕ) =>
          let rotated := warp3 P (centerPix S) (-((f : ℚ) * (360 / (fc : ℚ)) + i * aps)) 1 baseWedge
          satAdd3 out (if i % 2 = 1 then flipH S rotated else rotated))
        zeroC))

/-- Modelled from the spec: the uncached variant of the mirror mode the
spec compares against ("recomputing the mask per frame would be correct but
wasteful", §4.3) — the same canonical WedgeMask (`angle1 = 0`,
`angle2 = angle_per_slice`) and masked base wedge are rebuilt afresh for
every (frame, wedge) pair before rotating and mirroring. -/
def mirrorModeFramesRecompute (P : CvPrims) (src : CImg) (S n fc : ℕ) : List CImg :=
  (List.range fc).map (fun (f : ℕ) =>
    bitAnd3 (circleM S)
      ((List.range n).foldl
        (fun (out : CImg) (i : ℕ) =>
          let aps : ℚ := 360 / n
          let mask := P.fillWedge S (centerPix S) 0 aps
          let baseWedge := applyMask mask src
          let rotated := warp3 P (centerPix S) (-((f : ℚ) * (360 / (fc : ℚ)) + i * aps)) 1 baseWedge
          satAdd3 out (if i % 2 = 1 then flipH S rotated else rotated))
        zeroC))

/-- Python `int(x)` on a float: truncation toward zero, as a graph
relation (`k` is the truncation of `x`). -/
def TruncTo (x : ℝ) (k : ℤ) : Prop :=
  (0 ≤ x ∧ k = ⌊x⌋) ∨ (x < 0 ∧ k = ⌈x⌉)

/-- The real-plane geometry of the wedge mask of lines 61-77: pixel `p` is
marked iff it lies in the filled triangle `cv2.fillConvexPoly` rasterizes,
whose vertices are the center and the two truncated far points
`(int(cx + S·cos(radians θ)), int(cy + S·sin(radians θ)))` at the two
boundary angles (degrees, converted by `np.radians`, y-axis down). -/
def InWedgeMask (S : ℕ) (c : Pix) (θ1 θ2 : ℝ) (p : Pix) : Prop :=
  ∃ x1 y1 x2 y2 : ℤ,
    TruncTo ((c.1 : ℝ) + (S : ℝ) * Real.cos (θ1 * Real.pi / 180)) x1 ∧
    TruncTo ((c.2 : ℝ) + (S : ℝ) * Real.sin (θ1 * Real.pi / 180)) y1 ∧
    TruncTo ((c.1 : ℝ) + (S : ℝ) * Real.cos (θ2 * Real.pi / 180)) x2 ∧
    TruncTo ((c.2 : ℝ) + (S : ℝ) * Real.sin (θ2 * Real.pi / 180)) y2 ∧
    (((p.1 : ℝ), (p.2 : ℝ)) : ℝ × ℝ) ∈
      convexHull ℝ {(((c.1 : ℝ), (c.2 : ℝ)) : ℝ × ℝ),
        ((x1 : ℝ), (y1 : ℝ)), ((x2 : ℝ), (y2 : ℝ))}

/-- The coverage half of the spec's wedge-partition property (§4.2, §8):
every pixel within radius `S/2 - ε` of the canvas center lies in at least
one of the `n` wedge masks at base rotation `θbase`, where wedge `i` spans
the angles `θbase + i * (360 / n)` to `θbase + (i + 1) * (360 / n)`
(lines 63-64, with `angle_per_slice = 360 / n_segments` from line 46). -/
def MasksCoverDisc (S n : ℕ) (θbase ε : ℝ) : Prop :=
  ∀ p : Pix,
    ((p.1 : ℝ) - ((centerPix S).1 : ℝ)) ^ 2 + ((p.2 : ℝ) - ((centerPix S).2 : ℝ)) ^ 2
      < ((S : ℝ) / 2 - ε) ^ 2 →
    ∃ i < n, InWedgeMask S (centerPix S)
      (θbase + (i : ℝ) * (360 / (n : ℝ))) (θbase + ((i : ℝ) + 1) * (360 / (n : ℝ))) p

/-- Trivial instantiation of the raster primitives, used to evaluate the
pipeline on concrete inputs: a full mask and an identity warp. -/
def trivPrims : CvPrims where
  fillWedge := fun _ _ _ _ _ => 255
  warpG := fun _ _ _ g => g

/-- A concrete 4×4 one-color decoded bitmap for concrete evaluations. -/
def rawConst : RawImg Unit := ⟨4, 4, fun _ _ => ()⟩

/-- A concrete square decoded bitmap for concrete evaluations. -/
def raw4sq : RawImg Unit := ⟨4, 4, fun _ _ => ()⟩

/-- A concrete luma map for concrete evaluations. -/
def lumaConst : Unit → ℕ := fun _ => 7

/-- A concrete resampling policy (nearest-to-origin) for concrete
evaluations. -/
def polConst : GrayImg → ℕ → ℕ → ℕ → ℕ → ℕ := fun img _ _ x y => img.px x y

/-- A concrete decode map for concrete evaluations. -/
def decodeConst : Unit → RawImg Unit := fun _ => rawConst

/-- A frame is greyscale: all three channels agree at every pixel. -/
def ChannelEq (img : CImg) : Prop := ∀ p : Pix, ∀ c c' : Fin 3, img p c = img p c'

theorem length_generateFrames (P : CvPrims) (imgs : List CImg) (S n fc : ℕ) :
    (generateFrames P imgs S n fc).length = fc := by
  rw [generateFrames, List.length_map, List.length_range]

theorem generateFrames_exists_cons (P : CvPrims) (imgs : List CImg) (S n fc : ℕ)
    (hfc : 0 < fc) :
    ∃ hd tl, generateFrames P imgs S n fc = hd :: tl := by
  cases hg : generateFrames P imgs S n fc with
  | nil =>
      have := length_generateFrames P imgs S n fc
      rw [hg] at this
      simp at this
      omega
  | cons a l => exact ⟨a, l, rfl⟩

/-- C2: when the number of available source images is less than the
requested `n_segments` the run fails with the insufficient-sources error,
and this failure is raised before any image decoding or frame work (the
result is the same error for every decode map and every raster-primitive
instantiation); conversely `n_segments` equal to the number of available
sources passes the guard and the run succeeds. -/
theorem C2_insufficient_guard {α F : Type} (P : CvPrims) (luma : α → ℕ)
    (pol : GrayImg → ℕ → ℕ → ℕ → ℕ → ℕ) (S fc it : ℕ)
    (decode : F → RawImg α) (files : List F) (n : ℕ) :
    (files.length < n →
      runWithSegments P luma pol S fc it decode files n = .error .insufficientSources) ∧
    (files.length < n → ∀ (P' : CvPrims) (decode' : F → RawImg α),
      runWithSegments P luma pol S fc it decode files n =
        runWithSegments P' luma pol S fc it decode' files n) ∧
    (0 < fc → n = files.length →
      ∃ a, runWithSegments P luma pol S fc it decode files n = .ok a) := by
  refine ⟨fun h => ?_, fun h P' decode' => ?_, fun hfc hn => ?_⟩
  · simp [runWithSegments, if_pos h]
  · simp [runWithSegments, if_pos h]
  · obtain ⟨hd, tl, hg⟩ := generateFrames_exists_cons P
      (files.map (fun f => toCanvas (preprocess luma pol S (decode f)))) S n fc hfc
    refine ⟨⟨gifName it, hd :: tl, 50, 0⟩, ?_⟩
    unfold runWithSegments
    rw [if_neg (by omega)]
    show saveGif it (generateFrames P
      (files.map (fun f => toCanvas (preprocess luma pol S (decode f)))) S n fc) = _
    rw [hg]
    rfl

/-- Witness for C2 at concrete inputs: one file with `n_segments = 2`
fails with the insufficient-sources error, two files with
`n_segments = 2` succeed. -/
theorem C2_insufficient_guard_witness :
    runWithSegments trivPrims lumaConst polConst 4 1 0 decodeConst [()] 2 =
      .error .insufficientSources ∧
    ∃ a, runWithSegments trivPrims lumaConst polConst 4 1 0 decodeConst [(), ()] 2 = .ok a :=
  ⟨(C2_insufficient_guard trivPrims lumaConst polConst 4 1 0 decodeConst [()] 2).1 (by decide),
   (C2_insufficient_guard trivPrims lumaConst polConst 4 1 0 decodeConst
      [(), ()] 2).2.2 (by decide) rfl⟩

/-- C10: since `n_segments` is drawn by `random.randint(2, len(image_files))`
it always lies in `[2, len(image_files)]`, so the insufficient-sources
branch is unreachable in every run; and with fewer than 2 eligible files
the run instead fails inside the random segment-count selection (empty
range), before the guard is evaluated. -/
theorem C10_branch_unreachable {α F : Type} (P : CvPrims) (luma : α → ℕ)
    (pol : GrayImg → ℕ → ℕ → ℕ → ℕ → ℕ) (S fc it r : ℕ)
    (decode : F → RawImg α) (files : List F) :
    (runIteration P luma pol S fc it r decode files ≠ .error .insufficientSources) ∧
    (∀ n, pickNSegments files.length r = .ok n → 2 ≤ n ∧ n ≤ files.length) ∧
    (files.length < 2 →
      runIteration P luma pol S fc it r decode files = .error .emptyRandRange) := by
  refine ⟨?_, fun n hn => ?_, fun h => ?_⟩
  · by_cases hm : files.length < 2
    · rw [runIteration, pickNSegments, if_pos hm]
      intro hcontra
      exact absurd hcontra (by simp [Except.bind])
    · have hmod : r % (files.length - 1) < files.length - 1 :=
        Nat.mod_lt _ (by omega)
      rw [runIteration, pickNSegments, if_neg hm]
      show runWithSegments P luma pol S fc it decode files (2 + r % (files.length - 1)) ≠ _
      unfold runWithSegments
      rw [if_neg (by omega)]
      show saveGif it (generateFrames P
        (files.map (fun f => toCanvas (preprocess luma pol S (decode f)))) S
        (2 + r % (files.length - 1)) fc) ≠ _
      cases hg : generateFrames P
          (files.map (fun f => toCanvas (preprocess luma pol S (decode f)))) S
          (2 + r % (files.length - 1)) fc with
      | nil => simp [saveGif]
      | cons hd tl => simp [saveGif]
  · rw [pickNSegments] at hn
    by_cases hm : files.length < 2
    · rw [if_pos hm] at hn
      exact absurd hn (by simp)
    · rw [if_neg hm] at hn
      have hmod : r % (files.length - 1) < files.length - 1 :=
        Nat.mod_lt _ (by omega)
      have : n = 2 + r % (files.length - 1) := by
        cases hn
        rfl
      omega
  · rw [runIteration, pickNSegments, if_pos h]
    rfl

/-- Witness for C10 at concrete inputs: a two-file run never reports
insufficient sources, the drawn segment count lies in `[2, 2]`, and a
one-file run fails in the random range selection. -/
theorem C10_branch_unreachable_witness :
    (runIteration trivPrims lumaConst polConst 4 1 0 5 decodeConst [(), ()] ≠
      .error .insufficientSources) ∧
    (2 ≤ 2 ∧ 2 ≤ ([(), ()] : List Unit).length) ∧
    (runIteration trivPrims lumaConst polConst 4 1 0 5 decodeConst [()] =
      .error .emptyRandRange) :=
  ⟨(C10_branch_unreachable trivPrims lumaConst polConst 4 1 0 5 decodeConst [(), ()]).1,
   (C10_branch_unreachable trivPrims lumaConst polConst 4 1 0 5 decodeConst
      [(), ()]).2.1 2 rfl,
   (C10_branch_unreachable trivPrims lumaConst polConst 4 1 0 5 decodeConst [()]).2.2
      (by decide)⟩

theorem pad3_length_of_lt (n : ℕ) (h : n < 1000) : (pad3 n).length = 3 := by
  have hd : (decRepr n).length ≤ 3 := by
    rw [decRepr, List.length_reverse, List.length_map]
    rcases Nat.eq_zero_or_pos n with h0 | h0
    · simp [h0]
    · rw [Nat.digits_len 10 n (by norm_num) (by omega)]
      have hlog : Nat.log 10 n < 3 := Nat.log_lt_of_lt_pow (by omega) (by norm_num; omega)
      omega
  show (String.mk (List.replicate (3 - (decRepr n).length) '0' ++ decRepr n)).length = 3
  rw [String.length]
  simp only [List.length_append, List.length_replicate]
  omega

/-- C8: for every iteration the run produces exactly one animation artifact,
named with the zero-padded 3-digit iteration index, encoded from the full
frame sequence with a fixed 50 ms per-frame delay and loop count 0
(infinite). -/
theorem C8_artifact {α F : Type} (P : CvPrims) (luma : α → ℕ)
    (pol : GrayImg → ℕ → ℕ → ℕ → ℕ → ℕ) (S fc it : ℕ)
    (decode : F → RawImg α) (files : List F) (n : ℕ)
    (hn : ¬ files.length < n) (hfc : 0 < fc) (hit : it < 1000) :
    ∃ a, runWithSegments P luma pol S fc it decode files n = .ok a ∧
      a.name = "kaleidoscope_" ++ pad3 it ++ ".gif" ∧
      (pad3 it).length = 3 ∧
      a.frames = generateFrames P
        (files.map (fun f => toCanvas (preprocess luma pol S (decode f)))) S n fc ∧
      a.frames.length = fc ∧
      a.durationMs = 50 ∧
      a.loop = 0 := by
  obtain ⟨hd, tl, hg⟩ := generateFrames_exists_cons P
    (files.map (fun f => toCanvas (preprocess luma pol S (decode f)))) S n fc hfc
  refine ⟨⟨gifName it, hd :: tl, 50, 0⟩, ?_, rfl, pad3_length_of_lt it hit, ?_, ?_, rfl, rfl⟩
  · unfold runWithSegments
    rw [if_neg hn]
    show saveGif it (generateFrames P
      (files.map (fun f => toCanvas (preprocess luma pol S (decode f)))) S n fc) = _
    rw [hg]
    rfl
  · rw [hg]
  · show (hd :: tl).length = fc
    rw [← hg, length_generateFrames]

/-- Witness for C8 at concrete inputs: iteration 7 over two files with
two segments and one frame yields an artifact named `kaleidoscope_007.gif`
with a 50 ms delay and loop count 0. -/
theorem C8_artifact_witness :
    ∃ a, runWithSegments trivPrims lumaConst polConst 4 1 7 decodeConst [(), ()] 2 = .ok a ∧
      a.name = "kaleidoscope_" ++ pad3 7 ++ ".gif" ∧
      (pad3 7).length = 3 ∧
      a.frames = generateFrames trivPrims
        ([(), ()].map (fun f => toCanvas (preprocess lumaConst polConst 4 (decodeConst f)))) 4 2 1 ∧
      a.frames.length = 1 ∧
      a.durationMs = 50 ∧
      a.loop = 0 :=
  C8_artifact trivPrims lumaConst polConst 4 1 7 decodeConst [(), ()] 2
    (by decide) (by decide) (by decide)

/-- C4: for every positive `frame_count` the sequencer produces exactly
`frame_count` frames, frame `f` being rendered at
`base_rotation = f * (360 / frame_count)`; frame 0 is at base rotation 0,
and the per-frame increments sum to exactly one full 360-degree turn. -/
theorem C4_frame_sequencer (P : CvPrims) (imgs : List CImg) (S n fc : ℕ)
    (hfc : 0 < fc) :
    (generateFrames P imgs S n fc).length = fc ∧
    (∀ f, f < fc → (generateFrames P imgs S n fc)[f]? =
      some (renderFrame P imgs S n ((f : ℚ) * (360 / (fc : ℚ))))) ∧
    (generateFrames P imgs S n fc)[0]? = some (renderFrame P imgs S n 0) ∧
    (fc : ℚ) * (360 / (fc : ℚ)) = 360 := by
  have hget : ∀ f, f < fc → (generateFrames P imgs S n fc)[f]? =
      some (renderFrame P imgs S n ((f : ℚ) * (360 / (fc : ℚ)))) := by
    intro f hf
    rw [generateFrames, List.getElem?_map, List.getElem?_range hf, Option.map_some']
  refine ⟨length_generateFrames P imgs S n fc, hget, ?_, ?_⟩
  · rw [hget 0 hfc]
    norm_num
  · have : (fc : ℚ) ≠ 0 := Nat.cast_ne_zero.mpr (by omega)
    field_simp

/-- Witness for C4 at concrete inputs: 4 frames are produced and frame 1 of
4 is rendered at base rotation `1 * (360 / 4)`. -/
theorem C4_frame_sequencer_witness :
    (generateFrames trivPrims [] 4 2 4).length = 4 ∧
    (generateFrames trivPrims [] 4 2 4)[1]? =
      some (renderFrame trivPrims [] 4 2 ((1 : ℚ) * (360 / (4 : ℚ)))) ∧
    (generateFrames trivPrims [] 4 2 4)[0]? = some (renderFrame trivPrims [] 4 2 0) ∧
    ((4 : ℕ) : ℚ) * (360 / ((4 : ℕ) : ℚ)) = 360 :=
  ⟨(C4_frame_sequencer trivPrims [] 4 2 4 (by decide)).1,
   (C4_frame_sequencer trivPrims [] 4 2 4 (by decide)).2.1 1 (by decide),
   (C4_frame_sequencer trivPrims [] 4 2 4 (by decide)).2.2.1,
   (C4_frame_sequencer trivPrims [] 4 2 4 (by decide)).2.2.2⟩

/-- C3: every frame `f` of the multi-image sequence is the disc-clipped
saturating accumulation over wedge indices `i < n` of `wedgeTerm`, and the
wedge term at index `i` is exactly: source image `i mod (number of
sources)`, masked by the wedge mask at `angle1 = base_rotation +
i * (360/n)` and `angle2 = base_rotation + (i+1) * (360/n)`, rotated about
the canvas center by `-angle1` degrees at unit scale, mirrored horizontally
exactly when `i` is odd. -/
theorem C3_wedge_compositor (P : CvPrims) (imgs : List CImg) (S n fc : ℕ) :
    (∀ f, f < fc → (generateFrames P imgs S n fc)[f]? =
      some (bitAnd3 (circleM S)
        (((List.range n).map
            (wedgeTerm P imgs S n ((f : ℚ) * (360 / (fc : ℚ))))).foldl satAdd3 zeroC))) ∧
    (∀ brot : ℚ, ∀ i : ℕ, Odd i → wedgeTerm P imgs S n brot i =
      flipH S (warp3 P (centerPix S) (-(brot + (i : ℚ) * (360 / (n : ℚ)))) 1
        (applyMask
          (P.fillWedge S (centerPix S) (brot + (i : ℚ) * (360 / (n : ℚ)))
            (brot + ((i : ℚ) + 1) * (360 / (n : ℚ))))
          (imgs.getD (i % imgs.length) zeroC)))) ∧
    (∀ brot : ℚ, ∀ i : ℕ, ¬ Odd i → wedgeTerm P imgs S n brot i =
      warp3 P (centerPix S) (-(brot + (i : ℚ) * (360 / (n : ℚ)))) 1
        (applyMask
          (P.fillWedge S (centerPix S) (brot + (i : ℚ) * (360 / (n : ℚ)))
            (brot + ((i : ℚ) + 1) * (360 / (n : ℚ))))
          (imgs.getD (i % imgs.length) zeroC))) := by
  refine ⟨fun f hf => ?_, fun brot i hodd => ?_, fun brot i hodd => ?_⟩
  · rw [generateFrames, List.getElem?_map, List.getElem?_range hf, Option.map_some']
    rw [renderFrame, List.foldl_map]
    rfl
  · simp [wedgeTerm, Nat.odd_iff.mp hodd]
  · rw [Nat.odd_iff] at hodd
    simp [wedgeTerm, if_neg (by omega : ¬ i % 2 = 1)]

/-- Witness for C3 at concrete inputs: frame 0 of a 1-frame, 2-segment run
is the clipped fold of wedge terms, and wedge 1 (odd) is the mirrored
rotated masked source while wedge 0 (even) is not mirrored. -/
theorem C3_wedge_compositor_witness :
    ((generateFrames trivPrims [zeroC] 4 2 1)[0]? =
      some (bitAnd3 (circleM 4)
        (((List.range 2).map
            (wedgeTerm trivPrims [zeroC] 4 2 ((0 : ℚ) * (360 / (1 : ℚ))))).foldl satAdd3 zeroC))) ∧
    (wedgeTerm trivPrims [zeroC] 4 2 0 1 =
      flipH 4 (warp3 trivPrims (centerPix 4) (-((0 : ℚ) + (1 : ℚ) * (360 / (2 : ℚ)))) 1
        (applyMask
          (trivPrims.fillWedge 4 (centerPix 4) ((0 : ℚ) + (1 : ℚ) * (360 / (2 : ℚ)))
            ((0 : ℚ) + ((1 : ℚ) + 1) * (360 / (2 : ℚ))))
          ([zeroC].getD (1 % 1) zeroC)))) :=
  ⟨(C3_wedge_compositor trivPrims [zeroC] 4 2 1).1 0 (by decide),
   by
    have h := (C3_wedge_compositor trivPrims [zeroC] 4 2 1).2.1 0 1 (by decide)
    norm_num at h ⊢
    exact h⟩

/-- C6: in the single-image mirror mode (modelled from the spec, since that
mode is not part of this source file), precomputing the one canonical
wedge mask and masked base wedge once per animation and only rotating and
mirroring it per frame yields exactly the same frame sequence as
recomputing the mask and base wedge for every (frame, wedge) pair. -/
theorem C6_mirror_mode_cache (P : CvPrims) (src : CImg) (S n fc : ℕ) :
    mirrorModeFrames P src S n fc = mirrorModeFramesRecompute P src S n fc := rfl

theorem centerCrop_sides (img : GrayImg) :
    (centerCrop img).width = min img.width img.height ∧
    (centerCrop img).height = min img.width img.height := by
  constructor
  · show (img.width + min img.width img.height) / 2 -
      (img.width - min img.width img.height) / 2 = min img.width img.height
    omega
  · show (img.height + min img.width img.height) / 2 -
      (img.height - min img.width img.height) / 2 = min img.width img.height
    omega

/-- C5: the preprocessor converts the input to single-channel intensity,
crops the largest centered square (side `min W H`, offsets
`(W - side) / 2` and `(H - side) / 2`, floor division on nonnegative
values, i.e. truncation toward zero), resizes to `S × S`, and broadcasts
the channel three-fold; for a square input the crop is the identity. -/
theorem C5_preprocessor {α : Type} (luma : α → ℕ)
    (pol : GrayImg → ℕ → ℕ → ℕ → ℕ → ℕ) (S : ℕ) (raw : RawImg α) :
    (preprocess luma pol S raw).width = S ∧
    (preprocess luma pol S raw).height = S ∧
    (∀ x y c, (preprocess luma pol S raw).px x y c =
      pol (centerCrop (convertL luma raw)) S S x y) ∧
    (∀ x y c c', (preprocess luma pol S raw).px x y c =
      (preprocess luma pol S raw).px x y c') ∧
    (centerCrop (convertL luma raw)).width = min raw.width raw.height ∧
    (centerCrop (convertL luma raw)).height = min raw.width raw.height ∧
    (∀ x y, (centerCrop (convertL luma raw)).px x y =
      luma (raw.px (x + (raw.width - min raw.width raw.height) / 2)
        (y + (raw.height - min raw.width raw.height) / 2))) ∧
    (raw.width = raw.height → centerCrop (convertL luma raw) = convertL luma raw) := by
  refine ⟨rfl, rfl, fun x y c => rfl, fun x y c c' => rfl, ?_, ?_, fun x y => rfl, fun hsq => ?_⟩
  · exact (centerCrop_sides (convertL luma raw)).1
  · exact (centerCrop_sides (convertL luma raw)).2
  · show cropBox (convertL luma raw) _ _ _ _ = convertL luma raw
    have hw : (convertL luma raw).width = raw.width := rfl
    have hh : (convertL luma raw).height = raw.height := rfl
    rw [cropBox]
    have hmin : min raw.width raw.height = raw.width := by omega
    cases hc : convertL luma raw with
    | mk w h px =>
        rw [hc] at hw hh
        dsimp at hw hh ⊢
        subst hw hh
        rw [hmin]
        congr 1
        · omega
        · omega
        · funext x y
          congr 1 <;> omega

/-- Witness for C5 at a concrete non-square input: a 6×4 bitmap is cropped
to the centered 4×4 square at offset `(1, 0)` and resized to 8×8 with
three equal channels. -/
theorem C5_preprocessor_witness :
    (preprocess lumaConst polConst 8 ⟨6, 4, fun _ _ => ()⟩).width = 8 ∧
    (centerCrop (convertL lumaConst ⟨6, 4, fun _ _ => ()⟩)).width = min 6 4 ∧
    (centerCrop (convertL lumaConst ⟨6, 4, fun _ _ => ()⟩)).px 0 0 =
      lumaConst (RawImg.px ⟨6, 4, fun _ _ => ()⟩ ((0 + (6 - min 6 4) / 2)) ((0 + (4 - min 6 4) / 2))) ∧
    (raw4sq.width = raw4sq.height →
      centerCrop (convertL lumaConst raw4sq) = convertL lumaConst raw4sq) :=
  ⟨(C5_preprocessor lumaConst polConst 8 ⟨6, 4, fun _ _ => ()⟩).1,
   (C5_preprocessor lumaConst polConst 8 ⟨6, 4, fun _ _ => ()⟩).2.2.2.2.1,
   (C5_preprocessor lumaConst polConst 8 ⟨6, 4, fun _ _ => ()⟩).2.2.2.2.2.2.1 0 0,
   (C5_preprocessor lumaConst polConst 8 raw4sq).2.2.2.2.2.2.2⟩

/-- C7: every pixel strictly farther than `frame_size / 2` from the canvas
center is zero in every frame of the sequence, in every channel, because
every finished frame is clipped by the circular mask. -/
theorem C7_circular_clip (P : CvPrims) (imgs : List CImg) (S n fc : ℕ)
    (fr : CImg) (hfr : fr ∈ generateFrames P imgs S n fc) (p : Pix)
    (hp : (S : ℤ) ^ 2 < 4 * ((p.1 - (centerPix S).1) ^ 2 + (p.2 - (centerPix S).2) ^ 2))
    (c : Fin 3) : fr p c = 0 := by
  obtain ⟨f, hf, hfe⟩ := List.mem_map.mp (by rw [generateFrames] at hfr; exact hfr)
  have hmask : circleM S p = 0 := by
    rw [circleM]
    rw [if_neg]
    intro hle
    have hq : ((S / 2 : ℕ) : ℤ) * 2 ≤ (S : ℤ) := by
      have := Nat.div_mul_le_self S 2
      omega
    have hsq : (((S / 2 : ℕ) : ℤ)) ^ 2 * 4 ≤ (S : ℤ) ^ 2 := by nlinarith
    nlinarith
  rw [← hfe]
  simp only [renderFrame, bitAnd3]
  rw [hmask]
  exact Nat.and_zero _

/-- Witness for C7 at concrete inputs: in the single frame of a 4×4 run,
the pixel `(4, 0)` (outside the inscribed disc) is zero. -/
theorem C7_circular_clip_witness :
    renderFrame trivPrims [] 4 2 ((0 : ℚ) * (360 / (1 : ℚ))) ((4 : ℤ), (0 : ℤ)) 0 = 0 :=
  C7_circular_clip trivPrims [] 4 2 1
    (renderFrame trivPrims [] 4 2 ((0 : ℚ) * (360 / (1 : ℚ))))
    (by rw [generateFrames]; exact List.mem_map.mpr ⟨0, by decide, rfl⟩)
    ((4 : ℤ), (0 : ℤ)) (by decide) 0

theorem channelEq_satAdd3 {f g : CImg} (hf : ChannelEq f) (hg : ChannelEq g) :
    ChannelEq (satAdd3 f g) := by
  intro p c c'
  show satAdd (f p c) (g p c) = satAdd (f p c') (g p c')
  rw [hf p c c', hg p c c']

theorem channelEq_applyMask (m : GImg) {img : CImg} (h : ChannelEq img) :
    ChannelEq (applyMask m img) := by
  intro p c c'
  show (if m p = 0 then 0 else img p c) = (if m p = 0 then 0 else img p c')
  rw [h p c c']

theorem channelEq_warp3 (P : CvPrims) (cen : Pix) (θ s : ℚ) {img : CImg}
    (h : ChannelEq img) : ChannelEq (warp3 P cen θ s img) := by
  intro p c c'
  show P.warpG cen θ s (fun q => img q c) p = P.warpG cen θ s (fun q => img q c') p
  have : (fun q => img q c) = (fun q => img q c') := funext fun q => h q c c'
  rw [this]

theorem channelEq_flipH (S : ℕ) {img : CImg} (h : ChannelEq img) :
    ChannelEq (flipH S img) := by
  intro p c c'
  exact h ((S : ℤ) - 1 - p.1, p.2) c c'

theorem channelEq_bitAnd3 (m : GImg) {img : CImg} (h : ChannelEq img) :
    ChannelEq (bitAnd3 m img) := by
  intro p c c'
  show Nat.land (img p c) (m p) = Nat.land (img p c') (m p)
  rw [h p c c']

theorem channelEq_getD {imgs : List CImg} (h : ∀ x ∈ imgs, ChannelEq x) (k : ℕ) :
    ChannelEq (imgs.getD k zeroC) := by
  by_cases hk : k < imgs.length
  · rw [imgs.getD_eq_getElem zeroC hk]
    exact h _ (imgs.getElem_mem hk)
  · rw [imgs.getD_eq_default zeroC (by omega)]
    exact fun _ _ _ => rfl

theorem channelEq_wedgeTerm (P : CvPrims) {imgs : List CImg} (S n : ℕ) (brot : ℚ)
    (h : ∀ x ∈ imgs, ChannelEq x) (i : ℕ) :
    ChannelEq (wedgeTerm P imgs S n brot i) := by
  have hbase : ChannelEq (warp3 P (centerPix S) (-(brot + (i : ℚ) * (360 / (n : ℚ)))) 1
      (applyMask
        (P.fillWedge S (centerPix S) (brot + (i : ℚ) * (360 / (n : ℚ)))
          (brot + ((i : ℚ) + 1) * (360 / (n : ℚ))))
        (imgs.getD (i % imgs.length) zeroC))) :=
    channelEq_warp3 P _ _ _ (channelEq_applyMask _ (channelEq_getD h _))
  by_cases hodd : i % 2 = 1
  · show ChannelEq (if i % 2 = 1 then flipH S _ else _)
    rw [if_pos hodd]
    exact channelEq_flipH S hbase
  · show ChannelEq (if i % 2 = 1 then flipH S _ else _)
    rw [if_neg hodd]
    exact hbase

theorem channelEq_foldl_satAdd3 (g : ℕ → CImg) (hg : ∀ i, ChannelEq (g i)) :
    ∀ (l : List ℕ) (acc : CImg), ChannelEq acc →
      ChannelEq (l.foldl (fun out i => satAdd3 out (g i)) acc) := by
  intro l
  induction l with
  | nil => exact fun acc h => h
  | cons a t ih => exact fun acc h => ih _ (channelEq_satAdd3 h (hg a))

theorem channelEq_renderFrame (P : CvPrims) {imgs : List CImg} (S n : ℕ) (brot : ℚ)
    (h : ∀ x ∈ imgs, ChannelEq x) : ChannelEq (renderFrame P imgs S n brot) := by
  have : ChannelEq (bitAnd3 (circleM S)
      ((List.range n).foldl
        (fun out i => satAdd3 out (wedgeTerm P imgs S n brot i)) zeroC)) :=
    channelEq_bitAnd3 _
      (channelEq_foldl_satAdd3 _ (channelEq_wedgeTerm P S n brot h) _ _ (fun _ _ _ => rfl))
  exact this

theorem channelEq_preprocessed {α : Type} (luma : α → ℕ)
    (pol : GrayImg → ℕ → ℕ → ℕ → ℕ → ℕ) (S : ℕ) (raw : RawImg α) :
    ChannelEq (toCanvas (preprocess luma pol S raw)) := by
  intro p c c'
  by_cases h : 0 ≤ p.1 ∧ p.1 < ((preprocess luma pol S raw).width : ℤ) ∧
      0 ≤ p.2 ∧ p.2 < ((preprocess luma pol S raw).height : ℤ)
  · show (if _ ∧ _ ∧ _ ∧ _ then _ else _) = (if _ ∧ _ ∧ _ ∧ _ then _ else _)
    rw [if_pos h, if_pos h]
    rfl
  · show (if _ ∧ _ ∧ _ ∧ _ then _ else _) = (if _ ∧ _ ∧ _ ∧ _ then _ else _)
    rw [if_neg h, if_neg h]

/-- C9: every frame of the multi-image generation loop is greyscale: the
three channels agree at every pixel, because every preprocessed source is
a single intensity channel broadcast three-fold and masking, warping,
mirroring, saturating addition and circular clipping act identically on
each channel. -/
theorem C9_frames_greyscale {α F : Type} (P : CvPrims) (luma : α → ℕ)
    (pol : GrayImg → ℕ → ℕ → ℕ → ℕ → ℕ) (S n fc : ℕ)
    (decode : F → RawImg α) (files : List F) (fr : CImg)
    (hfr : fr ∈ generateFrames P
      (files.map (fun f => toCanvas (preprocess luma pol S (decode f)))) S n fc)
    (p : Pix) (c c' : Fin 3) : fr p c = fr p c' := by
  obtain ⟨f, hf, hfe⟩ := List.mem_map.mp (by rw [generateFrames] at hfr; exact hfr)
  rw [← hfe]
  refine channelEq_renderFrame P S n _ ?_ p c c'
  intro x hx
  obtain ⟨file, hfile, hxe⟩ := List.mem_map.mp hx
  rw [← hxe]
  exact channelEq_preprocessed luma pol S (decode file)

/-- Witness for C9 at concrete inputs: in the single frame of a concrete
two-file run, channels 0 and 2 agree at pixel `(1, 1)`. -/
theorem C9_frames_greyscale_witness :
    renderFrame trivPrims
      ([(), ()].map (fun f => toCanvas (preprocess lumaConst polConst 4 (decodeConst f))))
      4 2 ((0 : ℚ) * (360 / (1 : ℚ))) ((1 : ℤ), (1 : ℤ)) 0 =
    renderFrame trivPrims
      ([(), ()].map (fun f => toCanvas (preprocess lumaConst polConst 4 (decodeConst f))))
      4 2 ((0 : ℚ) * (360 / (1 : ℚ))) ((1 : ℤ), (1 : ℤ)) 2 :=
  C9_frames_greyscale trivPrims lumaConst polConst 4 2 1 decodeConst [(), ()]
    (renderFrame trivPrims
      ([(), ()].map (fun f => toCanvas (preprocess lumaConst polConst 4 (decodeConst f))))
      4 2 ((0 : ℚ) * (360 / (1 : ℚ))))
    (by rw [generateFrames]; exact List.mem_map.mpr ⟨0, by decide, rfl⟩)
    ((1 : ℤ), (1 : ℤ)) 0 2

theorem convex_sndEq (b : ℝ) : Convex ℝ {q : ℝ × ℝ | q.2 = b} := by
  intro q hq r hr a c ha hc hac
  simp only [Set.mem_setOf_eq] at *
  rw [Prod.snd_add, Prod.smul_snd, Prod.smul_snd, smul_eq_mul, smul_eq_mul, hq, hr]
  linear_combination b * hac

theorem hull_snd (b : ℝ) (A B C : ℝ × ℝ) (hA : A.2 = b) (hB : B.2 = b) (hC : C.2 = b)
    {p : ℝ × ℝ} (hp : p ∈ convexHull ℝ ({A, B, C} : Set (ℝ × ℝ))) : p.2 = b := by
  have hsub : ({A, B, C} : Set (ℝ × ℝ)) ⊆ {q | q.2 = b} := by
    intro q hq
    simp only [Set.mem_insert_iff, Set.mem_singleton_iff] at hq
    rcases hq with rfl | rfl | rfl
    · exact hA
    · exact hB
    · exact hC
  exact convexHull_min hsub (convex_sndEq b) hp

theorem truncTo_eq_of_val {x : ℝ} {k m : ℤ} (hx : x = (m : ℝ)) (h : TruncTo x k) : k = m := by
  rcases h with ⟨_, hk⟩ | ⟨_, hk⟩
  · rw [hk, hx, Int.floor_intCast]
  · rw [hk, hx, Int.ceil_intCast]

theorem sin_deg360 : Real.sin (360 * Real.pi / 180) = 0 := by
  rw [show (360 : ℝ) * Real.pi / 180 = 2 * Real.pi by ring]
  exact Real.sin_two_pi

/-- C1: the wedge-partition property fails on the code at
`n_segments = 2`. At a 180-degree slice span the three triangle vertices
of lines 66-76 are collinear (both far vertices lie on the horizontal line
through the center when `θ_base = 0`), so `cv2.fillConvexPoly` degenerates
to a segment on that line: the pixel `(256, 255)`, at distance 1 from the
center of a 512-pixel canvas, lies in neither of the two wedge masks, so
the union of the masks does not cover the disc of radius `512/2 - ε` for
any tolerance `ε ≤ 254`, contradicting the claimed coverage for all
`n_segments ≥ 2`. -/
theorem C1_wedge_masks_degenerate (ε : ℝ) (hε : ε ≤ 254) :
    ¬ MasksCoverDisc 512 2 0 ε := by
  intro h
  obtain ⟨i, hi, hm⟩ := h ((256 : ℤ), (255 : ℤ))
    (by
      norm_num [centerPix]
      exact lt_of_lt_of_le one_lt_two (le_trans (by linarith) (le_abs_self _)))
  obtain ⟨x1, y1, x2, y2, htx1, hty1, htx2, hty2, hhull⟩ := hm
  interval_cases i
  · have hy1 : y1 = 256 := truncTo_eq_of_val (by norm_num [centerPix, Real.sin_zero]) hty1
    have hy2 : y2 = 256 := truncTo_eq_of_val (by norm_num [centerPix, Real.sin_pi]) hty2
    have hp2 : ((255 : ℤ) : ℝ) = 256 := by
      refine hull_snd 256 _ _ _ ?_ ?_ ?_ hhull
      · norm_num [centerPix]
      · rw [hy1]
        norm_num
      · rw [hy2]
        norm_num
    norm_num at hp2
  · have hy1 : y1 = 256 := truncTo_eq_of_val (by norm_num [centerPix, Real.sin_pi]) hty1
    have hy2 : y2 = 256 := truncTo_eq_of_val (by norm_num [centerPix, sin_deg360]) hty2
    have hp2 : ((255 : ℤ) : ℝ) = 256 := by
      refine hull_snd 256 _ _ _ ?_ ?_ ?_ hhull
      · norm_num [centerPix]
      · rw [hy1]
        norm_num
      · rw [hy2]
        norm_num
    norm_num at hp2

/-- Witness for C1 at a concrete tolerance: with `ε = 1` the two wedge
masks of a 512-pixel canvas at `n_segments = 2`, `θ_base = 0` do not cover
the disc of radius 255. -/
theorem C1_wedge_masks_degenerate_witness : ¬ MasksCoverDisc 512 2 0 1 :=
  C1_wedge_masks_degenerate 1 (by norm_num)

end Kscope
